import Mathlib

/-!
Shallow embedding of the go-service-s3 storage driver (`storage.go`, `utils.go`,
`errors.go`).  Go strings, paths and object keys are modelled as `List Char`;
byte slices as `List Nat` (each element a byte value).  The AWS SDK service
client is an explicit function argument of each embedded operation, and every
operation that may reach the network additionally returns the number of service
invocations it performed, so that "fails before any network call" properties
are directly expressible.  Fallible Go functions return `Except Err _`.
-/

namespace S3

/-- Error taxonomy: the go-storage `services` sentinel errors together with the
local errors raised in `storage.go` / `utils.go`.  Go wraps sentinels via
`fmt.Errorf("msg: %w", err)`; the wrapping message is carried alongside. -/
inductive Err where
  | restrictionDissatisfied (msg : String)
  | readerNilSizeNonzero
  | sseCustomerKeyInvalid
  | pairUnsupported
  | backend (code : String)
  deriving DecidableEq

/-- go-storage `ObjectMode` bit set, restricted to the four bits this service
touches (`ModeRead`, `ModeDir`, `ModePart`, `ModeLink`).  `Mode.Add` sets a
bit, `Mode.Del` clears it. -/
structure ObjectMode where
  read : Bool
  dir : Bool
  part : Bool
  link : Bool
  deriving DecidableEq

/-- go-storage `types.Object`, restricted to the fields `storage.go` reads or
writes: backend key `ID`, user path `Path`, mode bits, and the multipart
upload ID (`MustGetMultipartID`). -/
structure Object where
  id : List Char
  path : List Char
  mode : ObjectMode
  multipartID : String
  deriving DecidableEq

/-- go-storage `types.Part`: zero-based index, size in bytes, ETag. -/
structure Part where
  index : Int
  size : Int
  etag : String
  deriving DecidableEq

/-- Multipart restrictions (utils.go): max part count. -/
def multipartNumberMaximum : Int := 10000

/-- Multipart restrictions (utils.go): maximum size for each part, 5 GiB. -/
def multipartSizeMaximum : Int := 5 * 1024 * 1024 * 1024

/-- Multipart restrictions (utils.go): minimum size for each part, 5 MiB. -/
def multipartSizeMinimum : Int := 5 * 1024 * 1024

/-- Maximum size for a single PUT (utils.go), 5 GiB. -/
def writeSizeMaximum : Int := 5 * 1024 * 1024 * 1024

/-- Go `strings.TrimPrefix`: drop `pre` from the front of `s` when it is a
prefix, otherwise return `s` unchanged. -/
def goTrimPrefix (s pre : List Char) : List Char :=
  if pre.isPrefixOf s then s.drop pre.length else s

/-- `(*Storage).getAbsPath` (utils.go): `strings.TrimPrefix(s.workDir, "/") + path`. -/
def getAbsPath (workDir path : List Char) : List Char :=
  goTrimPrefix workDir ['/'] ++ path

/-- `(*Storage).getRelPath` (utils.go):
`strings.TrimPrefix(path, strings.TrimPrefix(s.workDir, "/"))`. -/
def getRelPath (workDir path : List Char) : List Char :=
  goTrimPrefix path (goTrimPrefix workDir ['/'])

/-- The standard base64 alphabet used by Go `encoding/base64.StdEncoding`. -/
def base64Table : List Char :=
  "ABCDEFGHIJKLMNOPQRSTUVWXYZabcdefghijklmnopqrstuvwxyz0123456789+/".data

/-- One output digit of standard base64. -/
def base64Digit (n : Nat) : Char := base64Table.getD n '='

/-- Go `base64.StdEncoding.EncodeToString` over a byte sequence (bytes as
`Nat` values `< 256`), with `=` padding. -/
def base64EncodeBytes : List Nat → List Char
  | [] => []
  | [a] => [base64Digit (a / 4), base64Digit (a % 4 * 16), '=', '=']
  | [a, b] =>
      [base64Digit (a / 4), base64Digit (a % 4 * 16 + b / 16), base64Digit (b % 16 * 4), '=']
  | a :: b :: c :: rest =>
      base64Digit (a / 4) :: base64Digit (a % 4 * 16 + b / 16) ::
        base64Digit (b % 16 * 4 + c / 64) :: base64Digit (c % 64) :: base64EncodeBytes rest

/-- `calculateEncryptionHeaders` (utils.go).  The digest `crypto/md5.Sum` is a
Go-standard-library collaborator and is abstracted as the explicit argument
`md5` (a function from the 32 key bytes to the 16 digest bytes); base64 is
embedded above.  A key whose length is not exactly 32 bytes fails with
`ErrServerSideEncryptionCustomerKeyInvalid` (errors.go); otherwise the result
is the triple `(algorithm, base64(key), base64(md5(key)))`. -/
def calculateEncryptionHeaders (md5 : List Nat → List Nat) (algo : String) (key : List Nat) :
    Except Err (String × String × String) :=
  if key.length ≠ 32 then .error .sseCustomerKeyInvalid
  else .ok (algo, (base64EncodeBytes key).asString, (base64EncodeBytes (md5 key)).asString)

/-- `pairStorageRead`: the option fields `formatGetObjectInput` consumes.  Each
Go `HasX`/`X` presence pair is one `Option`; the customer-key pair
(`ServerSideEncryptionCustomerAlgorithm`, `ServerSideEncryptionCustomerKey`)
is carried together. -/
structure PairStorageRead where
  offset : Option Int
  size : Option Int
  exceptedBucketOwner : Option String
  sseCustomer : Option (String × List Nat)
  deriving DecidableEq

/-- `s3.GetObjectInput`, restricted to the fields `formatGetObjectInput` sets. -/
structure GetObjectInput where
  bucket : String
  key : List Char
  rangeHeader : Option String
  expectedBucketOwner : Option String
  sseCustomerAlgorithm : Option String
  sseCustomerKey : Option String
  sseCustomerKeyMD5 : Option String
  deriving DecidableEq

/-- `formatGetObjectInput` (utils.go): builds the GET request, including the
three `Range` header shapes produced by `fmt.Sprintf` and the optional
customer-key encryption headers (failing the whole call when the key is
invalid, before any request value is returned). -/
def formatGetObjectInput (md5 : List Nat → List Nat) (name : String) (workDir path : List Char)
    (opt : PairStorageRead) : Except Err GetObjectInput :=
  let rp := getAbsPath workDir path
  let rangeHeader : Option String :=
    match opt.offset, opt.size with
    | some o, some sz => some ("bytes=" ++ toString o ++ "-" ++ toString (o + sz - 1))
    | some o, none => some ("bytes=" ++ toString o ++ "-")
    | none, some sz => some ("bytes=0-" ++ toString (sz - 1))
    | none, none => none
  match opt.sseCustomer with
  | none => .ok ⟨name, rp, rangeHeader, opt.exceptedBucketOwner, none, none, none⟩
  | some (algo, key) =>
      match calculateEncryptionHeaders md5 algo key with
      | .error e => .error e
      | .ok (a, kb, km) =>
          .ok ⟨name, rp, rangeHeader, opt.exceptedBucketOwner, some a, some kb, some km⟩

/-- `pairStorageWrite`: the option fields `formatPutObjectInput` and `write`
consume. -/
structure PairStorageWrite where
  contentMd5 : Option String
  storageClass : Option String
  exceptedBucketOwner : Option String
  bucketKeyEnabled : Option Bool
  sseCustomer : Option (String × List Nat)
  sseKmsKeyId : Option String
  sseContext : Option String
  serverSideEncryption : Option String
  deriving DecidableEq

/-- `s3.PutObjectInput`, restricted to the fields `formatPutObjectInput` and
`write` set.  `body` is the byte stream handed to the SDK. -/
structure PutObjectInput where
  bucket : String
  key : List Char
  contentLength : Int
  contentMD5 : Option String
  storageClass : Option String
  expectedBucketOwner : Option String
  bucketKeyEnabled : Option Bool
  sseCustomerAlgorithm : Option String
  sseCustomerKey : Option String
  sseCustomerKeyMD5 : Option String
  sseKmsKeyId : Option String
  sseKmsEncryptionContext : Option String
  serverSideEncryption : Option String
  body : List Nat
  deriving DecidableEq

/-- `formatPutObjectInput` (utils.go): builds the PUT request from the path,
size and option pairs.  The KMS encryption context is base64-encoded; the
customer-key headers come from `calculateEncryptionHeaders` and abort the
call on an invalid key.  The body is attached later by `write`. -/
def formatPutObjectInput (md5 : List Nat → List Nat) (name : String) (workDir path : List Char)
    (size : Int) (opt : PairStorageWrite) : Except Err PutObjectInput :=
  let rp := getAbsPath workDir path
  let ctx : Option String :=
    opt.sseContext.map fun c => (base64EncodeBytes (c.data.map Char.toNat)).asString
  match opt.sseCustomer with
  | none =>
      .ok ⟨name, rp, size, opt.contentMd5, opt.storageClass, opt.exceptedBucketOwner,
        opt.bucketKeyEnabled, none, none, none, opt.sseKmsKeyId, ctx,
        opt.serverSideEncryption, []⟩
  | some (algo, key) =>
      match calculateEncryptionHeaders md5 algo key with
      | .error e => .error e
      | .ok (a, kb, km) =>
          .ok ⟨name, rp, size, opt.contentMd5, opt.storageClass, opt.exceptedBucketOwner,
            opt.bucketKeyEnabled, some a, some kb, some km, opt.sseKmsKeyId, ctx,
            opt.serverSideEncryption, []⟩

/-- `(*Storage).write` (storage.go).  Checks the single-put size restriction,
normalizes the reader per GSP-751 (nil reader with size 0, or any reader with
size 0, becomes an empty body; nil reader with nonzero size is an error;
otherwise the reader is wrapped in `io.LimitReader(r, size)`, modelled as
taking the first `size` bytes of the stream), formats the request, and issues
exactly one `PutObjectWithContext` call.  The second component of the result
counts service invocations. -/
def write (md5 : List Nat → List Nat) (svc : PutObjectInput → Except Err Unit) (name : String)
    (workDir path : List Char) (r : Option (List Nat)) (size : Int) (opt : PairStorageWrite) :
    Except Err Int × Nat :=
  if size > writeSizeMaximum then (.error (.restrictionDissatisfied "size limit exceeded"), 0)
  else
    let body? : Except Err (List Nat) :=
      if (r = none ∧ size = 0) ∨ (r ≠ none ∧ size = 0) then .ok []
      else if r = none ∧ size ≠ 0 then .error .readerNilSizeNonzero
      else .ok ((r.getD []).take size.toNat)
    match body? with
    | .error e => (.error e, 0)
    | .ok body =>
        match formatPutObjectInput md5 name workDir path size opt with
        | .error e => (.error e, 0)
        | .ok input =>
            match svc { input with body := body } with
            | .error e => (.error e, 1)
            | .ok _ => (.ok size, 1)

/-- `pairStorageWriteMultipart`: the option fields `writeMultipart` consumes. -/
structure PairStorageWriteMultipart where
  exceptedBucketOwner : Option String
  sseCustomer : Option (String × List Nat)
  deriving DecidableEq

/-- `s3.UploadPartInput`, restricted to the fields `writeMultipart` sets. -/
structure UploadPartInput where
  bucket : String
  partNumber : Int
  key : List Char
  uploadId : String
  contentLength : Int
  body : List Nat
  expectedBucketOwner : Option String
  sseCustomerAlgorithm : Option String
  sseCustomerKey : Option String
  sseCustomerKeyMD5 : Option String
  deriving DecidableEq

/-- `s3.UploadPartOutput`, restricted to the ETag the code reads. -/
structure UploadPartOutput where
  etag : String
  deriving DecidableEq

/-- `(*Storage).writeMultipart` (storage.go).  Checks the part-size and
part-count restrictions before anything else, sends wire
`PartNumber = index + 1` (zero-based index for users, one-based on the wire),
and on success returns a `Part` whose `Index` is the caller's `index`.  The
body `iowrap.SizedReadSeekCloser(r, size)` is modelled as the first `size`
bytes of the stream.  The second component counts service invocations. -/
def writeMultipart (md5 : List Nat → List Nat) (svc : UploadPartInput → Except Err UploadPartOutput)
    (name : String) (o : Object) (r : List Nat) (size : Int) (index : Int)
    (opt : PairStorageWriteMultipart) : Except Err (Int × Part) × Nat :=
  if size > multipartSizeMaximum then
    (.error (.restrictionDissatisfied "size limit exceeded"), 0)
  else if index < 0 ∨ index ≥ multipartNumberMaximum then
    (.error (.restrictionDissatisfied "multipart number limit exceeded"), 0)
  else
    let sse : Except Err (Option String × Option String × Option String) :=
      match opt.sseCustomer with
      | none => .ok (none, none, none)
      | some (algo, key) =>
          match calculateEncryptionHeaders md5 algo key with
          | .error e => .error e
          | .ok (a, kb, km) => .ok (some a, some kb, some km)
    match sse with
    | .error e => (.error e, 0)
    | .ok (a, kb, km) =>
        match svc ⟨name, index + 1, o.id, o.multipartID, size, r.take size.toNat,
            opt.exceptedBucketOwner, a, kb, km⟩ with
        | .error e => (.error e, 1)
        | .ok out => (.ok (size, ⟨index, size, out.etag⟩), 1)

/-- `s3.CompletedPart`: ETag plus the one-based wire part number. -/
structure CompletedPart where
  etag : String
  partNumber : Int
  deriving DecidableEq

/-- `s3.CompleteMultipartUploadInput`, restricted to the fields the code sets. -/
structure CompleteMultipartUploadInput where
  bucket : String
  key : List Char
  parts : List CompletedPart
  uploadId : String
  expectedBucketOwner : Option String
  deriving DecidableEq

/-- `pairStorageCompleteMultipart`: the option fields the complete call consumes. -/
structure PairStorageCompleteMultipart where
  exceptedBucketOwner : Option String
  deriving DecidableEq

/-- `formatCompleteMultipartUploadInput` (utils.go): appends one
`CompletedPart` per caller part, in the caller's iteration order, with wire
`PartNumber = v.Index + 1`. -/
def formatCompleteMultipartUploadInput (name : String) (o : Object) (parts : List Part)
    (opt : PairStorageCompleteMultipart) : CompleteMultipartUploadInput :=
  ⟨name, o.id, parts.map fun v => ⟨v.etag, v.index + 1⟩, o.multipartID,
    opt.exceptedBucketOwner⟩

/-- `(*Storage).completeMultipart` (storage.go): one
`CompleteMultipartUploadWithContext` call on the formatted input; on success
the object's mode drops `ModePart` and gains `ModeRead`.  The Go code mutates
`o`; the embedding returns the updated object. -/
def completeMultipart (svc : CompleteMultipartUploadInput → Except Err Unit) (name : String)
    (o : Object) (parts : List Part) (opt : PairStorageCompleteMultipart) : Except Err Object :=
  match svc (formatCompleteMultipartUploadInput name o parts opt) with
  | .error e => .error e
  | .ok _ => .ok { o with mode := { o.mode with part := false, read := true } }

/-- One wire part of an `s3.ListPartsOutput` (fields the code reads). -/
structure WirePart where
  partNumber : Int
  size : Int
  etag : String
  deriving DecidableEq

/-- `s3.ListPartsOutput`, restricted to the fields `nextPartPage` reads. -/
structure ListPartsOutput where
  parts : List WirePart
  isTruncated : Bool
  nextPartNumberMarker : Int
  deriving DecidableEq

/-- `s3.ListPartsInput`, restricted to the fields `nextPartPage` sets. -/
structure ListPartsInput where
  bucket : String
  key : List Char
  maxParts : Int
  partNumberMarker : Int
  uploadId : String
  expectedBucketOwner : Option String
  deriving DecidableEq

/-- `partPageStatus` (generated pairs code, fields as used by storage.go):
the part-listing cursor. -/
structure PartPageStatus where
  maxParts : Int
  key : List Char
  uploadId : String
  partNumberMarker : Int
  expectedBucketOwner : Option String
  deriving DecidableEq

/-- `(*Storage).nextPartPage` (storage.go): one `ListPartsWithContext` call
from the current cursor; every returned wire part number `n` is parsed back to
the zero-based `Index = n - 1` and appended to the page data in order.  When
the response is not truncated it signals `IterateDone` (the `Bool` component
`true`); otherwise it stores `NextPartNumberMarker` as the new cursor. -/
def nextPartPage (svc : ListPartsInput → Except Err ListPartsOutput) (name : String)
    (st : PartPageStatus) (pageData : List Part) :
    Except Err (List Part × PartPageStatus × Bool) :=
  match svc ⟨name, st.key, st.maxParts, st.partNumberMarker, st.uploadId,
      st.expectedBucketOwner⟩ with
  | .error e => .error e
  | .ok out =>
      let data := pageData ++ out.parts.map fun v => ⟨v.partNumber - 1, v.size, v.etag⟩
      if !out.isTruncated then .ok (data, st, true)
      else .ok (data, ⟨st.maxParts, st.key, st.uploadId, out.nextPartNumberMarker,
        st.expectedBucketOwner⟩, false)

/-- One `s3.Object` entry of a `ListObjectsV2` response (fields
`formatFileObject` reads). -/
structure S3ObjectEntry where
  key : List Char
  size : Int
  etag : String
  storageClass : String
  deriving DecidableEq

/-- `s3.ListObjectsV2Output`, restricted to the fields the page functions
read.  `nextContinuationToken` is the backend-issued resume cursor. -/
structure ListObjectsV2Output where
  commonPrefixes : List (List Char)
  contents : List S3ObjectEntry
  isTruncated : Bool
  nextContinuationToken : String
  deriving DecidableEq

/-- `s3.ListObjectsV2Input`, restricted to the fields the page functions set.
`pfx` is the Go field `Prefix`. -/
structure ListObjectsV2Input where
  bucket : String
  delimiter : Option String
  maxKeys : Int
  continuationToken : Option String
  pfx : List Char
  expectedBucketOwner : Option String
  deriving DecidableEq

/-- `objectPageStatus` (generated pairs code, fields as used by storage.go).
`pfx` is the Go field `prefix`.  `getServiceContinuationToken` returns nil for
an empty token, modelled by `serviceContinuationToken` below. -/
structure ObjectPageStatus where
  delimiter : String
  maxKeys : Int
  continuationToken : String
  pfx : List Char
  keyMarker : String
  uploadIdMarker : String
  expectedBucketOwner : Option String
  deriving DecidableEq

/-- `(*objectPageStatus).getServiceContinuationToken`: nil while the token is
still empty, otherwise the stored token. -/
def serviceContinuationToken (st : ObjectPageStatus) : Option String :=
  if st.continuationToken = "" then none else some st.continuationToken

/-- `(*Storage).formatFileObject` (utils.go): a listed content entry becomes a
read-mode object with `ID` the raw key and `Path` its work-dir-relative form. -/
def formatFileObject (workDir : List Char) (v : S3ObjectEntry) : Object :=
  ⟨v.key, getRelPath workDir v.key, ⟨true, false, false, false⟩, ""⟩

/-- `(*Storage).nextObjectPageByPrefix` (storage.go; the Lean name carries an
`Fn` suffix): one `ListObjectsV2WithContext` call from the current cursor;
content entries are appended in response order; a non-truncated response
signals `IterateDone` (`Bool` component `true`), a truncated one stores
`NextContinuationToken` as the new cursor. -/
def nextObjectPageByPrefixFn (svc : ListObjectsV2Input → Except Err ListObjectsV2Output)
    (name : String) (workDir : List Char) (st : ObjectPageStatus) (pageData : List Object) :
    Except Err (List Object × ObjectPageStatus × Bool) :=
  match svc ⟨name, none, st.maxKeys, serviceContinuationToken st, st.pfx,
      st.expectedBucketOwner⟩ with
  | .error e => .error e
  | .ok out =>
      let data := pageData ++ out.contents.map (formatFileObject workDir)
      if !out.isTruncated then .ok (data, st, true)
      else .ok (data, { st with continuationToken := out.nextContinuationToken }, false)

/-- `(*Storage).nextObjectPageByDir` (storage.go): like the prefix variant but
with the `/` delimiter set, and each common prefix first becomes a dir-mode
entry, appended before the content entries of the same page. -/
def nextObjectPageByDir (svc : ListObjectsV2Input → Except Err ListObjectsV2Output)
    (name : String) (workDir : List Char) (st : ObjectPageStatus) (pageData : List Object) :
    Except Err (List Object × ObjectPageStatus × Bool) :=
  match svc ⟨name, some st.delimiter, st.maxKeys, serviceContinuationToken st, st.pfx,
      st.expectedBucketOwner⟩ with
  | .error e => .error e
  | .ok out =>
      let dirs := out.commonPrefixes.map fun p =>
        Object.mk p (getRelPath workDir p) ⟨false, true, false, false⟩ ""
      let data := pageData ++ dirs ++ out.contents.map (formatFileObject workDir)
      if !out.isTruncated then .ok (data, st, true)
      else .ok (data, { st with continuationToken := out.nextContinuationToken }, false)

/-- One upload entry of a `ListMultipartUploads` response (fields the code
reads). -/
structure UploadEntry where
  key : List Char
  uploadId : String
  deriving DecidableEq

/-- `s3.ListMultipartUploadsOutput`, restricted to the fields relevant here.
Per the AWS API, `keyMarker`/`uploadIdMarker` echo the request's markers
(the point at or after which the listing began), while
`nextKeyMarker`/`nextUploadIdMarker` are the cursor to use as the markers of
the subsequent request when the listing is truncated. -/
structure ListMultipartUploadsOutput where
  uploads : List UploadEntry
  isTruncated : Bool
  keyMarker : String
  uploadIdMarker : String
  nextKeyMarker : String
  nextUploadIdMarker : String
  deriving DecidableEq

/-- `s3.ListMultipartUploadsInput`, restricted to the fields the code sets.
`pfx` is the Go field `Prefix`. -/
structure ListMultipartUploadsInput where
  bucket : String
  keyMarker : String
  maxUploads : Int
  pfx : List Char
  uploadIdMarker : String
  expectedBucketOwner : Option String
  deriving DecidableEq

/-- `(*Storage).nextPartObjectPageByPrefix` (storage.go; the Lean name carries
an `Fn` suffix): one `ListMultipartUploadsWithContext` call from the current
cursor; each upload entry becomes a part-mode object carrying its upload ID.
A non-truncated response signals `IterateDone`; a truncated one stores
`output.KeyMarker` / `output.UploadIdMarker` — the echoed request markers, as
the source does — into the cursor. -/
def nextPartObjectPageByPrefixFn
    (svc : ListMultipartUploadsInput → Except Err ListMultipartUploadsOutput)
    (name : String) (workDir : List Char) (st : ObjectPageStatus) (pageData : List Object) :
    Except Err (List Object × ObjectPageStatus × Bool) :=
  match svc ⟨name, st.keyMarker, st.maxKeys, st.pfx, st.uploadIdMarker,
      st.expectedBucketOwner⟩ with
  | .error e => .error e
  | .ok out =>
      let data := pageData ++ out.uploads.map fun v =>
        Object.mk v.key (getRelPath workDir v.key) ⟨false, false, true, false⟩ v.uploadId
      if !out.isTruncated then .ok (data, st, true)
      else
        .ok (data,
          { st with keyMarker := out.keyMarker, uploadIdMarker := out.uploadIdMarker }, false)

/-- Modelled from the spec: the pull-based iterator driver
(go-storage's `NewObjectIterator`, framework code outside this repository).
Per section 4.3, the caller pulls pages until the fetch function signals
"no more pages"; a fetch error terminates iteration with that error.  `backend`
gives the service response to the k-th fetch; `fuel` bounds the number of
pulls.  The result is the yielded pages together with `true` exactly when the
iterator signalled completion (rather than running out of fuel). -/
def runObjectIterator {α : Type}
    (nextFn : (α → Except Err ListObjectsV2Output) → ObjectPageStatus → List Object →
      Except Err (List Object × ObjectPageStatus × Bool))
    (backend : Nat → α → Except Err ListObjectsV2Output) :
    Nat → Nat → ObjectPageStatus → Except Err (List (List Object) × Bool)
  | 0, _, _ => .ok ([], false)
  | fuel + 1, k, st =>
      match nextFn (backend k) st [] with
      | .error e => .error e
      | .ok (data, st2, done) =>
          if done then .ok ([data], true)
          else
            match runObjectIterator nextFn backend fuel (k + 1) st2 with
            | .error e => .error e
            | .ok (pages, fl) => .ok (data :: pages, fl)

/-- `pairStorageDelete`: the option fields `delete` and its formatters consume. -/
structure PairStorageDelete where
  multipartID : Option String
  objectMode : Option ObjectMode
  exceptedBucketOwner : Option String
  deriving DecidableEq

/-- `s3.AbortMultipartUploadInput`, restricted to the fields the code sets. -/
structure AbortMultipartUploadInput where
  bucket : String
  key : List Char
  uploadId : String
  expectedBucketOwner : Option String
  deriving DecidableEq

/-- `s3.DeleteObjectInput`, restricted to the fields the code sets. -/
structure DeleteObjectInput where
  bucket : String
  key : List Char
  expectedBucketOwner : Option String
  deriving DecidableEq

/-- `formatAbortMultipartUploadInput` (utils.go). -/
def formatAbortMultipartUploadInput (name : String) (workDir path : List Char) (id : String)
    (opt : PairStorageDelete) : AbortMultipartUploadInput :=
  ⟨name, getAbsPath workDir path, id, opt.exceptedBucketOwner⟩

/-- `formatDeleteObjectInput` (utils.go): with a dir object mode, directory
emulation must be enabled (else `PairUnsupportedError`) and a `/` is appended
to the key. -/
def formatDeleteObjectInput (name : String) (workDir : List Char) (virtualDir : Bool)
    (path : List Char) (opt : PairStorageDelete) : Except Err DeleteObjectInput :=
  let rp := getAbsPath workDir path
  match opt.objectMode with
  | some m =>
      if m.dir then
        if !virtualDir then .error .pairUnsupported
        else .ok ⟨name, rp ++ ['/'], opt.exceptedBucketOwner⟩
      else .ok ⟨name, rp, opt.exceptedBucketOwner⟩
  | none => .ok ⟨name, rp, opt.exceptedBucketOwner⟩

/-- The remote bucket contents a delete call acts on: existing object keys and
in-progress multipart uploads `(key, uploadId)`. -/
structure BackendState where
  keys : List (List Char)
  uploads : List (List Char × String)
  deriving DecidableEq

/-- Modelled from the spec: the AWS `DeleteObject` endpoint (external backend,
not part of this repository).  Per the comment in `(*Storage).delete` (GSP-46
and the AWS API reference it cites), DeleteObject is idempotent: deleting an
absent key is a success response, never a NoSuchKey failure. -/
def s3DeleteObject (state : BackendState) (input : DeleteObjectInput) :
    Except Err BackendState :=
  .ok ⟨state.keys.filter fun k => !(k == input.key), state.uploads⟩

/-- Modelled from the spec: the AWS `AbortMultipartUpload` endpoint (external
backend, not part of this repository).  Per the comment in `(*Storage).delete`
(GSP-46), abort is idempotent: aborting an already-aborted or non-existent
upload ID is a success response. -/
def s3AbortMultipartUpload (state : BackendState) (input : AbortMultipartUploadInput) :
    Except Err BackendState :=
  .ok ⟨state.keys,
    state.uploads.filter fun u => !(u.1 == input.key && u.2 == input.uploadId)⟩

/-- `(*Storage).delete` (storage.go): with a multipart ID the abort call runs
first (propagating its error); then the delete input is formatted (possibly
failing on an unsupported dir mode) and `DeleteObject` is issued.  Both
backend calls run against the modelled idempotent endpoints above. -/
def delete (state : BackendState) (name : String) (workDir : List Char) (virtualDir : Bool)
    (path : List Char) (opt : PairStorageDelete) : Except Err BackendState :=
  let afterAbort : Except Err BackendState :=
    match opt.multipartID with
    | some id => s3AbortMultipartUpload state (formatAbortMultipartUploadInput name workDir path id opt)
    | none => .ok state
  match afterAbort with
  | .error e => .error e
  | .ok st1 =>
      match formatDeleteObjectInput name workDir virtualDir path opt with
      | .error e => .error e
      | .ok input => s3DeleteObject st1 input

theorem isPrefixOf_append_self (l₁ l₂ : List Char) : l₁.isPrefixOf (l₁ ++ l₂) = true :=
  List.isPrefixOf_iff_prefix.mpr (List.prefix_append l₁ l₂)

/-- C5: for every configured working directory and path,
`getRelPath (getAbsPath p) = p` (so in particular whenever the root has no
naming collision with the resolved absolute form); and `getRelPath` never
fails — when the root prefix is absent from its input it returns the input
unmodified. -/
theorem getRelPath_getAbsPath (wd p q : List Char)
    (h : (goTrimPrefix wd ['/']).isPrefixOf q = false) :
    getRelPath wd (getAbsPath wd p) = p ∧ getRelPath wd q = q := by
  constructor
  · show goTrimPrefix (goTrimPrefix wd ['/'] ++ p) (goTrimPrefix wd ['/']) = p
    rw [goTrimPrefix, if_pos (isPrefixOf_append_self (goTrimPrefix wd ['/']) p)]
    exact List.drop_left _ _
  · show goTrimPrefix q (goTrimPrefix wd ['/']) = q
    rw [goTrimPrefix, if_neg]
    simp [h]

theorem getRelPath_getAbsPath_witness :
    getRelPath "/work/".data (getAbsPath "/work/".data "a.txt".data) = "a.txt".data ∧
    getRelPath "/work/".data "other".data = "other".data :=
  getRelPath_getAbsPath "/work/".data "a.txt".data "other".data (by decide)

/-- C4: the read formatter produces exactly the four range-header shapes:
offset and size present gives the closed range "bytes=offset-(offset+size-1)",
offset only gives "bytes=offset-", size only gives "bytes=0-(size-1)", and
with neither present no range header is set; in particular offset 5 with size
10 gives "bytes=5-14", offset 5 alone gives "bytes=5-", and size 10 alone
gives "bytes=0-9". -/
theorem formatGetObjectInput_range (md5 : List Nat → List Nat) (name : String)
    (wd path : List Char) (ow : Option String) (o sz : Int) :
    (formatGetObjectInput md5 name wd path ⟨some o, some sz, ow, none⟩).map
        GetObjectInput.rangeHeader
      = .ok (some ("bytes=" ++ toString o ++ "-" ++ toString (o + sz - 1))) ∧
    (formatGetObjectInput md5 name wd path ⟨some o, none, ow, none⟩).map
        GetObjectInput.rangeHeader = .ok (some ("bytes=" ++ toString o ++ "-")) ∧
    (formatGetObjectInput md5 name wd path ⟨none, some sz, ow, none⟩).map
        GetObjectInput.rangeHeader = .ok (some ("bytes=0-" ++ toString (sz - 1))) ∧
    (formatGetObjectInput md5 name wd path ⟨none, none, ow, none⟩).map
        GetObjectInput.rangeHeader = .ok none ∧
    (formatGetObjectInput md5 name wd path ⟨some 5, some 10, ow, none⟩).map
        GetObjectInput.rangeHeader = .ok (some "bytes=5-14") ∧
    (formatGetObjectInput md5 name wd path ⟨some 5, none, ow, none⟩).map
        GetObjectInput.rangeHeader = .ok (some "bytes=5-") ∧
    (formatGetObjectInput md5 name wd path ⟨none, some 10, ow, none⟩).map
        GetObjectInput.rangeHeader = .ok (some "bytes=0-9") :=
  ⟨rfl, rfl, rfl, rfl, rfl, rfl, rfl⟩

/-- C3: a customer key whose length is not exactly 32 bytes fails with the
invalid-encryption-key error, and an operation using it (here the read
formatter) fails with that error before any request is constructed; a 32-byte
key deterministically produces exactly the three header values: the algorithm
name, the base64 of the raw key, and the base64 of the MD5 digest of the raw
key. -/
theorem calculateEncryptionHeaders_spec (md5 : List Nat → List Nat) (algo : String)
    (key : List Nat) (name : String) (wd path : List Char) (off sz : Option Int)
    (ow : Option String) :
    (key.length ≠ 32 →
      calculateEncryptionHeaders md5 algo key = .error .sseCustomerKeyInvalid ∧
      formatGetObjectInput md5 name wd path ⟨off, sz, ow, some (algo, key)⟩ =
        .error .sseCustomerKeyInvalid) ∧
    (key.length = 32 →
      calculateEncryptionHeaders md5 algo key =
        .ok (algo, (base64EncodeBytes key).asString,
          (base64EncodeBytes (md5 key)).asString)) := by
  constructor
  · intro h
    have hd : calculateEncryptionHeaders md5 algo key = .error .sseCustomerKeyInvalid := by
      simp [calculateEncryptionHeaders, h]
    exact ⟨hd, by simp [formatGetObjectInput, hd]⟩
  · intro h
    simp [calculateEncryptionHeaders, h]

theorem calculateEncryptionHeaders_spec_witness :
    (calculateEncryptionHeaders (fun _ => List.range 16) "AES256" [1, 2, 3] =
        .error .sseCustomerKeyInvalid ∧
      formatGetObjectInput (fun _ => List.range 16) "b" [] []
          ⟨none, none, none, some ("AES256", [1, 2, 3])⟩ =
        .error .sseCustomerKeyInvalid) ∧
    calculateEncryptionHeaders (fun _ => List.range 16) "AES256" (List.replicate 32 7) =
      .ok ("AES256", (base64EncodeBytes (List.replicate 32 7)).asString,
        (base64EncodeBytes (List.range 16)).asString) :=
  ⟨(calculateEncryptionHeaders_spec (fun _ => List.range 16) "AES256" [1, 2, 3] "b" [] []
      none none none).1 (by decide),
    (calculateEncryptionHeaders_spec (fun _ => List.range 16) "AES256" (List.replicate 32 7)
      "b" [] [] none none none).2 (by decide)⟩

/-- C1: for every part index `i` in [0, 9999] (with the part size within
bound), uploading sends wire part-number `i + 1` and returns a `Part` whose
`Index` is `i`; parsing a list-parts response maps every returned wire
part-number `n` back to index `n - 1`; hence uploading with index `i` and then
listing the parts of the same session (the backend returning exactly the
uploaded part, wire number `i + 1`) yields exactly one part with index `i`. -/
theorem partIndex_roundtrip (md5 : List Nat → List Nat)
    (svc : UploadPartInput → Except Err UploadPartOutput) (name : String) (o : Object)
    (r : List Nat) (size i : Int) (ow : Option String) (st : PartPageStatus)
    (resp : ListPartsOutput) (sz m : Int) (e : String)
    (h0 : 0 ≤ i) (h1 : i < multipartNumberMaximum) (hs : size ≤ multipartSizeMaximum) :
    writeMultipart md5 svc name o r size i ⟨ow, none⟩ =
      ((svc ⟨name, i + 1, o.id, o.multipartID, size, r.take size.toNat, ow,
          none, none, none⟩).map (fun out => (size, Part.mk i size out.etag)), 1) ∧
    (nextPartPage (fun _ => .ok resp) name st []).map (fun x => x.1.map Part.index) =
      .ok (resp.parts.map fun v => v.partNumber - 1) ∧
    nextPartPage (fun _ => .ok ⟨[⟨i + 1, sz, e⟩], false, m⟩) name st [] =
      .ok ([Part.mk i sz e], st, true) ∧
    List.countP (fun p => p.index == i) [Part.mk i sz e] = 1 := by
  refine ⟨?_, ?_, ?_, ?_⟩
  · unfold writeMultipart
    rw [if_neg (not_lt.mpr hs), if_neg (by omega)]
    cases hv : svc ⟨name, i + 1, o.id, o.multipartID, size, r.take size.toNat, ow,
        none, none, none⟩ <;> simp [hv, Except.map]
  · unfold nextPartPage
    cases ht : resp.isTruncated <;> simp [ht, Except.map, List.map_map, Function.comp]
  · simp [nextPartPage]
  · simp [List.countP, List.countP.go]

theorem partIndex_roundtrip_witness :
    writeMultipart (fun _ => []) (fun _ => .ok ⟨"E"⟩) "b"
        ⟨"k".data, "k".data, ⟨false, false, true, false⟩, "U"⟩ [] 0 5 ⟨none, none⟩ =
      (.ok (0, Part.mk 5 0 "E"), 1) ∧
    nextPartPage (fun _ => .ok ⟨[⟨6, 7, "E2"⟩], false, 0⟩) "b"
        ⟨200, "k".data, "U", 0, none⟩ [] =
      .ok ([Part.mk 5 7 "E2"], ⟨200, "k".data, "U", 0, none⟩, true) ∧
    List.countP (fun p => p.index == (5 : Int)) [Part.mk 5 7 "E2"] = 1 := by
  have h := partIndex_roundtrip (fun _ => []) (fun _ => .ok ⟨"E"⟩) "b"
    ⟨"k".data, "k".data, ⟨false, false, true, false⟩, "U"⟩ [] 0 5 none
    ⟨200, "k".data, "U", 0, none⟩ ⟨[⟨6, 7, "E2"⟩], false, 0⟩ 7 0 "E2"
    (by decide) (by decide) (by decide)
  exact ⟨h.1, h.2.2.1, h.2.2.2⟩

/-- C2: `completeMultipart` submits the caller's parts in exactly the caller's
order (the wire list is the pointwise image of the caller's list, never
re-sorted), each with wire part-number = index + 1; and on success it flips
the object's mode from multipart-in-progress (`ModePart`) to readable
(`ModeRead`), leaving everything else unchanged. -/
theorem completeMultipart_spec (svc : CompleteMultipartUploadInput → Except Err Unit)
    (name : String) (o : Object) (parts : List Part) (opt : PairStorageCompleteMultipart) :
    (formatCompleteMultipartUploadInput name o parts opt).parts =
      parts.map (fun v => CompletedPart.mk v.etag (v.index + 1)) ∧
    completeMultipart svc name o parts opt =
      (svc (formatCompleteMultipartUploadInput name o parts opt)).map
        (fun _ => Object.mk o.id o.path
          (ObjectMode.mk true o.mode.dir false o.mode.link) o.multipartID) := by
  refine ⟨rfl, ?_⟩
  unfold completeMultipart
  cases svc (formatCompleteMultipartUploadInput name o parts opt) <;> rfl

/-- C6: in both prefix mode and directory mode, a backend that reports
not-truncated on the first page makes the iterator yield exactly one page and
then signal completion; a backend that reports truncated on page 1 and
not-truncated on page 2 makes it yield exactly two pages and then signal
completion without an error. -/
theorem iterator_pagination (name : String) (wd : List Char) (st : ObjectPageStatus)
    (r1 r2 : ListObjectsV2Output) (fuel : Nat)
    (h1 : r1.isTruncated = true) (h2 : r2.isTruncated = false) :
    (runObjectIterator (fun svc s d => nextObjectPageByPrefixFn svc name wd s d)
        (fun _ _ => .ok r2) (fuel + 1) 0 st).map (fun x => (x.1.length, x.2)) =
      .ok (1, true) ∧
    (runObjectIterator (fun svc s d => nextObjectPageByDir svc name wd s d)
        (fun _ _ => .ok r2) (fuel + 1) 0 st).map (fun x => (x.1.length, x.2)) =
      .ok (1, true) ∧
    (runObjectIterator (fun svc s d => nextObjectPageByPrefixFn svc name wd s d)
        (fun k _ => if k = 0 then .ok r1 else .ok r2) (fuel + 2) 0 st).map
        (fun x => (x.1.length, x.2)) = .ok (2, true) ∧
    (runObjectIterator (fun svc s d => nextObjectPageByDir svc name wd s d)
        (fun k _ => if k = 0 then .ok r1 else .ok r2) (fuel + 2) 0 st).map
        (fun x => (x.1.length, x.2)) = .ok (2, true) := by
  refine ⟨?_, ?_, ?_, ?_⟩ <;>
    simp [runObjectIterator, nextObjectPageByPrefixFn, nextObjectPageByDir, h1, h2,
      Except.map]

theorem iterator_pagination_witness :
    (runObjectIterator (fun svc s d => nextObjectPageByPrefixFn svc "b" [] s d)
        (fun _ _ => .ok ⟨[], [], false, ""⟩) 1 0 ⟨"/", 200, "", [], "", "", none⟩).map
        (fun x => (x.1.length, x.2)) = .ok (1, true) ∧
    (runObjectIterator (fun svc s d => nextObjectPageByDir svc "b" [] s d)
        (fun _ _ => .ok ⟨[], [], false, ""⟩) 1 0 ⟨"/", 200, "", [], "", "", none⟩).map
        (fun x => (x.1.length, x.2)) = .ok (1, true) ∧
    (runObjectIterator (fun svc s d => nextObjectPageByPrefixFn svc "b" [] s d)
        (fun k _ => if k = 0 then .ok ⟨[], [⟨"x".data, 1, "t", "STANDARD"⟩], true, "tok"⟩
          else .ok ⟨[], [], false, ""⟩) 2 0 ⟨"/", 200, "", [], "", "", none⟩).map
        (fun x => (x.1.length, x.2)) = .ok (2, true) ∧
    (runObjectIterator (fun svc s d => nextObjectPageByDir svc "b" [] s d)
        (fun k _ => if k = 0 then .ok ⟨[], [⟨"x".data, 1, "t", "STANDARD"⟩], true, "tok"⟩
          else .ok ⟨[], [], false, ""⟩) 2 0 ⟨"/", 200, "", [], "", "", none⟩).map
        (fun x => (x.1.length, x.2)) = .ok (2, true) := by
  have h := iterator_pagination "b" [] ⟨"/", 200, "", [], "", "", none⟩
    ⟨[], [⟨"x".data, 1, "t", "STANDARD"⟩], true, "tok"⟩ ⟨[], [], false, ""⟩ 0 rfl rfl
  exact ⟨h.1, h.2.1, h.2.2.1, h.2.2.2⟩

/-- C7: evaluating the multipart-upload listing at a truncated first page
shows the source stores the response's echoed `KeyMarker`/`UploadIdMarker`
(not the backend-issued `NextKeyMarker`/`NextUploadIdMarker`) into the cursor:
the stored cursor equals the request's own markers, so the status is unchanged
and the subsequent fetch re-issues the same page instead of resuming after
the returned page whose next markers are "k2"/"u2". -/
theorem nextPartObjectPage_cursor_not_advanced :
    (nextPartObjectPageByPrefixFn
        (fun _ => .ok ⟨[⟨"k".data, "u1"⟩], true, "", "", "k2", "u2"⟩)
        "b" [] ⟨"/", 200, "", [], "", "", none⟩ []).map (fun x => x.2.1) =
      .ok ⟨"/", 200, "", [], "", "", none⟩ ∧
    (ObjectPageStatus.mk "/" 200 "" [] "" "" none).keyMarker ≠ "k2" ∧
    (ObjectPageStatus.mk "/" 200 "" [] "" "" none).uploadIdMarker ≠ "u2" :=
  ⟨rfl, by decide, by decide⟩

/-- C8: deleting a path the backend reports as not-found returns success, and
delete with a multipart ID (abort) on an already-aborted or non-existent
upload ID returns success: in both cases no not-found error reaches the
caller, and the backend state is unchanged. -/
theorem delete_idempotent (state : BackendState) (name : String) (wd : List Char)
    (vd : Bool) (path : List Char) (ow : Option String) (id : String)
    (hk : getAbsPath wd path ∉ state.keys)
    (hu : (getAbsPath wd path, id) ∉ state.uploads) :
    delete state name wd vd path ⟨none, none, ow⟩ = .ok state ∧
    delete state name wd vd path ⟨some id, none, ow⟩ = .ok state := by
  have hkeys : state.keys.filter (fun k => !(k == getAbsPath wd path)) = state.keys :=
    List.filter_eq_self.mpr fun a ha => by
      simp only [Bool.not_eq_true', beq_eq_false_iff_ne]
      exact fun h => hk (h ▸ ha)
  have hups : state.uploads.filter
      (fun u => !(u.1 == getAbsPath wd path) || !(u.2 == id)) = state.uploads :=
    List.filter_eq_self.mpr fun u hu' => by
      rcases u with ⟨k, uid⟩
      have hne : ¬(k = getAbsPath wd path ∧ uid = id) := fun ⟨ha, hb⟩ =>
        hu (ha ▸ hb ▸ hu')
      simp only [Bool.or_eq_true, Bool.not_eq_true', beq_eq_false_iff_ne]
      tauto
  constructor
  · simp [delete, formatDeleteObjectInput, s3DeleteObject, hkeys]
  · simp [delete, formatDeleteObjectInput, formatAbortMultipartUploadInput,
      s3AbortMultipartUpload, s3DeleteObject, hkeys, hups]

theorem delete_idempotent_witness :
    delete ⟨["a".data], [("a".data, "u1")]⟩ "b" "/".data true "missing".data
        ⟨none, none, none⟩ = .ok ⟨["a".data], [("a".data, "u1")]⟩ ∧
    delete ⟨["a".data], [("a".data, "u1")]⟩ "b" "/".data true "missing".data
        ⟨some "u9", none, none⟩ = .ok ⟨["a".data], [("a".data, "u1")]⟩ :=
  delete_idempotent ⟨["a".data], [("a".data, "u1")]⟩ "b" "/".data true "missing".data
    none "u9" (by decide) (by decide)

/-- C9: a write whose size exceeds the 5 GiB single-put maximum fails with the
restriction-violated error and zero service invocations; an uploadPart whose
size exceeds the maximum single-part size, or whose index lies outside
[0, 10000), fails with a restriction-violated error and zero service
invocations. -/
theorem restriction_preflight (md5 : List Nat → List Nat)
    (svcP : PutObjectInput → Except Err Unit)
    (svcU : UploadPartInput → Except Err UploadPartOutput) (name : String)
    (wd path : List Char) (r : Option (List Nat)) (o : Object) (rp : List Nat)
    (size1 size2 idx : Int) (opt : PairStorageWrite) (optU : PairStorageWriteMultipart)
    (h1 : size1 > writeSizeMaximum)
    (h2 : size2 > multipartSizeMaximum ∨ idx < 0 ∨ idx ≥ multipartNumberMaximum) :
    write md5 svcP name wd path r size1 opt =
      (.error (.restrictionDissatisfied "size limit exceeded"), 0) ∧
    ∃ msg, writeMultipart md5 svcU name o rp size2 idx optU =
      (.error (.restrictionDissatisfied msg), 0) := by
  constructor
  · unfold write
    rw [if_pos h1]
  · unfold writeMultipart
    by_cases hs : size2 > multipartSizeMaximum
    · rw [if_pos hs]
      exact ⟨"size limit exceeded", rfl⟩
    · rw [if_neg hs, if_pos (h2.resolve_left hs)]
      exact ⟨"multipart number limit exceeded", rfl⟩

theorem restriction_preflight_witness :
    write (fun _ => []) (fun _ => .ok ()) "b" [] "p".data none 5368709121
        ⟨none, none, none, none, none, none, none, none⟩ =
      (.error (.restrictionDissatisfied "size limit exceeded"), 0) ∧
    ∃ msg, writeMultipart (fun _ => []) (fun _ => .ok ⟨"E"⟩) "b"
        ⟨"k".data, "k".data, ⟨false, false, true, false⟩, "U"⟩ [] 1 10000 ⟨none, none⟩ =
      (.error (.restrictionDissatisfied msg), 0) :=
  restriction_preflight (fun _ => []) (fun _ => .ok ()) (fun _ => .ok ⟨"E"⟩) "b" [] "p".data
    none ⟨"k".data, "k".data, ⟨false, false, true, false⟩, "U"⟩ [] 5368709121 1 10000
    ⟨none, none, none, none, none, none, none, none⟩ ⟨none, none⟩
    (by decide) (Or.inr (Or.inr (by decide)))

/-- C10: with size 0 — whether the reader is nil or not — write transmits an
empty body; a nil reader with nonzero size fails before any service call
(with the dedicated nil-reader error when the size-limit check passes, and
with some error and zero service calls for every nonzero size); a non-nil
reader with nonzero size has its transmitted body limited to exactly the
first `size` bytes of the stream. -/
theorem write_reader_normalization (md5 : List Nat → List Nat)
    (svc : PutObjectInput → Except Err Unit) (name : String) (wd path : List Char)
    (bs : List Nat) (size size3 : Int) (cm sc ow : Option String) (bke : Option Bool)
    (kms ctx sse : Option String)
    (hsz : size ≤ writeSizeMaximum) (hnz : size ≠ 0) (hnz3 : size3 ≠ 0) :
    write md5 svc name wd path none 0 ⟨cm, sc, ow, bke, none, kms, ctx, sse⟩ =
      ((svc ⟨name, getAbsPath wd path, 0, cm, sc, ow, bke, none, none, none, kms,
        ctx.map (fun c => (base64EncodeBytes (c.data.map Char.toNat)).asString), sse,
        []⟩).map (fun _ => 0), 1) ∧
    write md5 svc name wd path (some bs) 0 ⟨cm, sc, ow, bke, none, kms, ctx, sse⟩ =
      ((svc ⟨name, getAbsPath wd path, 0, cm, sc, ow, bke, none, none, none, kms,
        ctx.map (fun c => (base64EncodeBytes (c.data.map Char.toNat)).asString), sse,
        []⟩).map (fun _ => 0), 1) ∧
    write md5 svc name wd path none size ⟨cm, sc, ow, bke, none, kms, ctx, sse⟩ =
      (.error .readerNilSizeNonzero, 0) ∧
    write md5 svc name wd path (some bs) size ⟨cm, sc, ow, bke, none, kms, ctx, sse⟩ =
      ((svc ⟨name, getAbsPath wd path, size, cm, sc, ow, bke, none, none, none, kms,
        ctx.map (fun c => (base64EncodeBytes (c.data.map Char.toNat)).asString), sse,
        bs.take size.toNat⟩).map (fun _ => size), 1) ∧
    ((write md5 svc name wd path none size3 ⟨cm, sc, ow, bke, none, kms, ctx, sse⟩).2 = 0 ∧
      ∃ e, (write md5 svc name wd path none size3
        ⟨cm, sc, ow, bke, none, kms, ctx, sse⟩).1 = .error e) := by
  have hmax : ¬((0 : Int) > writeSizeMaximum) := by decide
  have hmax2 : ¬(size > writeSizeMaximum) := not_lt.mpr hsz
  refine ⟨?_, ?_, ?_, ?_, ?_⟩
  · cases hv : svc ⟨name, getAbsPath wd path, 0, cm, sc, ow, bke, none, none, none, kms,
        ctx.map (fun c => (base64EncodeBytes (c.data.map Char.toNat)).asString), sse,
        []⟩ <;>
      simp [write, formatPutObjectInput, hmax, hv, Except.map]
  · cases hv : svc ⟨name, getAbsPath wd path, 0, cm, sc, ow, bke, none, none, none, kms,
        ctx.map (fun c => (base64EncodeBytes (c.data.map Char.toNat)).asString), sse,
        []⟩ <;>
      simp [write, formatPutObjectInput, hmax, hv, Except.map]
  · simp [write, hmax2, hnz]
  · cases hv : svc ⟨name, getAbsPath wd path, size, cm, sc, ow, bke, none, none, none, kms,
        ctx.map (fun c => (base64EncodeBytes (c.data.map Char.toNat)).asString), sse,
        bs.take size.toNat⟩ <;>
      simp [write, formatPutObjectInput, hmax2, hnz, hv, Except.map]
  · by_cases h3 : size3 > writeSizeMaximum
    · exact ⟨by simp [write, h3], ⟨.restrictionDissatisfied "size limit exceeded",
        by simp [write, h3]⟩⟩
    · exact ⟨by simp [write, h3, hnz3], ⟨.readerNilSizeNonzero,
        by simp [write, h3, hnz3]⟩⟩

theorem write_reader_normalization_witness :
    write (fun _ => []) (fun _ => .ok ()) "b" [] "p".data none 0
        ⟨none, none, none, none, none, none, none, none⟩ = (.ok 0, 1) ∧
    write (fun _ => []) (fun _ => .ok ()) "b" [] "p".data (some [1, 2, 3, 4]) 0
        ⟨none, none, none, none, none, none, none, none⟩ = (.ok 0, 1) ∧
    write (fun _ => []) (fun _ => .ok ()) "b" [] "p".data none 2
        ⟨none, none, none, none, none, none, none, none⟩ =
      (.error .readerNilSizeNonzero, 0) ∧
    write (fun _ => []) (fun _ => .ok ()) "b" [] "p".data (some [1, 2, 3, 4]) 2
        ⟨none, none, none, none, none, none, none, none⟩ = (.ok 2, 1) ∧
    ((write (fun _ => []) (fun _ => .ok ()) "b" [] "p".data none 3
        ⟨none, none, none, none, none, none, none, none⟩).2 = 0 ∧
      ∃ e, (write (fun _ => []) (fun _ => .ok ()) "b" [] "p".data none 3
        ⟨none, none, none, none, none, none, none, none⟩).1 = .error e) := by
  have h := write_reader_normalization (fun _ => []) (fun _ => .ok ()) "b" [] "p".data
    [1, 2, 3, 4] 2 3 none none none none none none none
    (by decide) (by decide) (by decide)
  exact ⟨h.1, h.2.1, h.2.2.1, h.2.2.2.1, h.2.2.2.2⟩

end S3
